import Mathlib

/-!
Shallow embedding of the NAS operation catalog of
`FastAutoAugment/nas/operations.py` (and the validation-iterator recovery of
`FastAutoAugment/nas/search.py`), together with theorems settling the spec's
claims about it.

Conventions of the embedding:
* Python floats are modelled by `Rat`; a `state_dict` is an association list
  from parameter key to value.  Keys mirror the module tree built by each
  operation's `__init__` (e.g. `nn.Sequential` children are numbered), and the
  initial values are representative constants: no verified property depends on
  the numeric initialisation, only on the key structure.
* Python exceptions are modelled by `Except`: `KeyError` (dict lookup misses,
  the spec's `UnknownOperationError`), `ArgumentError` (registration collision,
  the spec's `DuplicateNameError`), `ValueError` and `AssertionError`.
* The module dictionary `_ops_factory` is an association list from operation
  name to factory; Python dict insertion order is append order and lookup is
  by key.
-/

namespace Archai

/-- A parameter entry: state_dict key paired with its (rational) value. -/
abbrev Param := String × Rat

/-- A module's `state_dict()`: ordered key/value pairs. -/
abbrev StateDict := List Param

/-- Python exceptions raised by the code under study. -/
inductive OpError
  /-- `KeyError` from a dict lookup (`_ops_factory[name]`, `params['stride']`);
  the spec's `UnknownOperationError`. -/
  | keyError (key : String)
  /-- `ArgumentError` raised by `Op.register_op`; the spec's `DuplicateNameError`. -/
  | argumentError (name : String)
  /-- `ValueError` raised by `PoolBN.__init__` on a bad pool type. -/
  | valueError
  /-- a failed `assert` statement. -/
  | assertionError
deriving DecidableEq, Repr

/-- `ConvMacroParams` of `model_desc.py`: channel counts shared on an edge. -/
structure ConvMacroParams where
  ch_in : Nat
  ch_out : Nat
deriving DecidableEq, Repr

/-- The `params` mapping of an `OpDesc`; only the keys read by
`operations.py` are modelled, each `Option` to model a possibly-absent key. -/
structure OpParams where
  conv : Option ConvMacroParams
  stride : Option Nat
  kernel_size : Option Nat
  padding : Option Nat
deriving DecidableEq, Repr

/-- The `trainables` blob produced by `Op.get_trainables`:
`\x7b'name': ..., 'sd': ...\x7d`. -/
structure Trainables where
  name : String
  sd : StateDict
deriving DecidableEq, Repr

/-- `OpDesc` of `model_desc.py` as consumed by `operations.py`: an operation
name, its shape parameters and an optional pre-trained state blob. -/
structure OpDesc where
  name : String
  params : OpParams
  trainables : Option Trainables
deriving DecidableEq, Repr

/-- Which concrete `Op` subclass an instance belongs to, with the constructor
arguments fixed by the factory table.  `skipConnect reduction` records whether
the inner module is `FactorizedReduce` (stride ≠ 1) or `Identity` (stride = 1). -/
inductive OpKind
  | poolBN (isMax : Bool)
  | skipConnect (reduction : Bool)
  | sepConv (kernel : Nat) (padding : Nat)
  | dilConv (kernel : Nat) (padding : Nat) (dilation : Nat)
  | zero (stride : Nat)
  | identity
  | facConv (kernel_length : Nat) (padding : Nat)
  | factorizedReduce
  | reluConvBN (kernel : Nat) (stride : Nat) (padding : Nat)
  | stemCifar
  | stem0Imagenet
  | stem1Imagenet
  | poolImagenet
  | poolCifar
  | channelAdjust
deriving DecidableEq, Repr

/-- state_dict of an `nn.BatchNorm2d` child at key `pre`: `weight`/`bias`
only when `affine`, plus the running statistics buffers. -/
def bnSd (pre : String) (affine : Bool) : StateDict :=
  (if affine then [(pre ++ ".weight", 1), (pre ++ ".bias", 0)] else [])
    ++ [(pre ++ ".running_mean", 0), (pre ++ ".running_var", 1)]

/-- state_dict of a bias-free `nn.Conv2d` child at key `pre`. -/
def convSd (pre : String) : StateDict :=
  [(pre ++ ".weight", 0)]

/-- Read `op_desc.params['conv']`, raising `KeyError` when absent. -/
def getConv (d : OpDesc) : Except OpError ConvMacroParams :=
  match d.params.conv with
  | some c => .ok c
  | none => .error (.keyError "conv")

/-- Read `op_desc.params['stride']`, raising `KeyError` when absent. -/
def getStride (d : OpDesc) : Except OpError Nat :=
  match d.params.stride with
  | some s => .ok s
  | none => .error (.keyError "stride")

/-- `PoolBN.__init__`: pool (no parameters) followed by a batchnorm; raises
`ValueError` on an unknown pool type, `KeyError` on missing params. -/
def buildPoolBN (pool_type : String) (d : OpDesc) (affine : Bool) :
    Except OpError (OpKind × StateDict) := do
  let _ ← getConv d
  let _ ← getStride d
  if pool_type = "max" then
    .ok (.poolBN true, bnSd "bn" affine)
  else if pool_type = "avg" then
    .ok (.poolBN false, bnSd "bn" affine)
  else
    .error .valueError

/-- `FactorizedReduce.__init__` as a submodule at key `pre`: two stride-2
1x1 convs and a batchnorm; `assert ch_out % 2 == 0`. -/
def factorizedReduceSd (pre : String) (d : OpDesc) (affine : Bool) :
    Except OpError StateDict := do
  let c ← getConv d
  if c.ch_out % 2 = 0 then
    .ok (convSd (pre ++ "conv_1") ++ convSd (pre ++ "conv_2")
          ++ bnSd (pre ++ "bn") affine)
  else
    .error .assertionError

/-- `SkipConnect.__init__`: inner `Identity` when stride = 1, else an inner
`FactorizedReduce` at attribute `_op`. -/
def buildSkipConnect (d : OpDesc) (affine : Bool) :
    Except OpError (OpKind × StateDict) := do
  let s ← getStride d
  if s = 1 then
    .ok (.skipConnect false, [])
  else do
    let sd ← factorizedReduceSd "_op." d affine
    .ok (.skipConnect true, sd)

/-- `DilConv.__init__` as a submodule at key `pre`: ReLU, depthwise conv,
pointwise conv, batchnorm inside `nn.Sequential` `op`. -/
def dilConvSd (pre : String) (d : OpDesc) (affine : Bool) :
    Except OpError StateDict := do
  let _ ← getConv d
  .ok (convSd (pre ++ "op.1") ++ convSd (pre ++ "op.2")
        ++ bnSd (pre ++ "op.3") affine)

/-- `DilConv` as a top-level op; the factory table reads
`op_desc.params['stride']` before calling the constructor. -/
def buildDilConv (kernel padding dilation : Nat) (d : OpDesc) (affine : Bool) :
    Except OpError (OpKind × StateDict) := do
  let _ ← getStride d
  let sd ← dilConvSd "" d affine
  .ok (.dilConv kernel padding dilation, sd)

/-- `SepConv.__init__`: two stacked `DilConv`s (children `op.0`, `op.1`);
the first takes `op_desc.params['stride']`. -/
def buildSepConv (kernel padding : Nat) (d : OpDesc) (affine : Bool) :
    Except OpError (OpKind × StateDict) := do
  let _ ← getStride d
  let sd0 ← dilConvSd "op.0." d affine
  let sd1 ← dilConvSd "op.1." d affine
  .ok (.sepConv kernel padding, sd0 ++ sd1)

/-- `FacConv.__init__`: ReLU, Kx1 conv, 1xK conv, batchnorm in `net`. -/
def buildFacConv (kernel_length padding : Nat) (d : OpDesc) (affine : Bool) :
    Except OpError (OpKind × StateDict) := do
  let _ ← getConv d
  let _ ← getStride d
  .ok (.facConv kernel_length padding,
        convSd "net.1" ++ convSd "net.2" ++ bnSd "net.3" affine)

/-- `ReLUConvBN.__init__`: ReLU, conv, batchnorm in `op`; stride is a
constructor argument (1 for the `prepr_normal` entry). -/
def buildReLUConvBN (kernel stride padding : Nat) (d : OpDesc) (affine : Bool) :
    Except OpError (OpKind × StateDict) := do
  let _ ← getConv d
  .ok (.reluConvBN kernel stride padding, convSd "op.1" ++ bnSd "op.2" affine)

/-- `Zero.__init__`: stores the stride, owns no parameters. -/
def buildZero (d : OpDesc) : Except OpError (OpKind × StateDict) := do
  let s ← getStride d
  .ok (.zero s, [])

/-- `StemCifar.__init__`: conv and batchnorm in `_op`. -/
def buildStemCifar (d : OpDesc) (affine : Bool) :
    Except OpError (OpKind × StateDict) := do
  let _ ← getConv d
  .ok (.stemCifar, convSd "_op.0" ++ bnSd "_op.1" affine)

/-- `Stem0Imagenet.__init__`: conv, bn, ReLU, conv, bn in `_op`. -/
def buildStem0Imagenet (d : OpDesc) (affine : Bool) :
    Except OpError (OpKind × StateDict) := do
  let _ ← getConv d
  .ok (.stem0Imagenet,
        convSd "_op.0" ++ bnSd "_op.1" affine
          ++ convSd "_op.3" ++ bnSd "_op.4" affine)

/-- `Stem1Imagenet.__init__`: ReLU, conv, bn in `_op`. -/
def buildStem1Imagenet (d : OpDesc) (affine : Bool) :
    Except OpError (OpKind × StateDict) := do
  let _ ← getConv d
  .ok (.stem1Imagenet, convSd "_op.1" ++ bnSd "_op.2" affine)

/-- `ChannelAdjust.__init__`: 1x1 conv and batchnorm in `_op`. -/
def buildChannelAdjust (d : OpDesc) (affine : Bool) :
    Except OpError (OpKind × StateDict) := do
  let _ ← getConv d
  .ok (.channelAdjust, convSd "_op.0" ++ bnSd "_op.1" affine)

/-- An entry of `_ops_factory`: takes the descriptor, the (unused by every
built-in entry) alphas, and the affine flag; yields the constructed instance
(its class tag and its initial state_dict) or raises. -/
abbrev OpFactoryFn := OpDesc → List Param → Bool → Except OpError (OpKind × StateDict)

/-- The built-in operation catalog `_ops_factory` of `operations.py`,
in source order. -/
def _ops_factory : List (String × OpFactoryFn) :=
  [ ("max_pool_3x3",   fun d _ affine => buildPoolBN "max" d affine),
    ("avg_pool_3x3",   fun d _ affine => buildPoolBN "avg" d affine),
    ("skip_connect",   fun d _ affine => buildSkipConnect d affine),
    ("sep_conv_3x3",   fun d _ affine => buildSepConv 3 1 d affine),
    ("sep_conv_5x5",   fun d _ affine => buildSepConv 5 2 d affine),
    ("dil_conv_3x3",   fun d _ affine => buildDilConv 3 2 2 d affine),
    ("dil_conv_5x5",   fun d _ affine => buildDilConv 5 4 2 d affine),
    ("none",           fun d _ _ => buildZero d),
    ("identity",       fun _ _ _ => .ok (.identity, [])),
    ("sep_conv_7x7",   fun d _ affine => buildSepConv 7 3 d affine),
    ("conv_7x1_1x7",   fun d _ affine => buildFacConv 7 3 d affine),
    ("prepr_reduce",   fun d _ affine => do
        let sd ← factorizedReduceSd "" d affine
        .ok (.factorizedReduce, sd)),
    ("prepr_normal",   fun d _ affine => buildReLUConvBN 1 1 0 d affine),
    ("stem_cifar",     fun d _ affine => buildStemCifar d affine),
    ("stem0_imagenet", fun d _ affine => buildStem0Imagenet d affine),
    ("stem1_imagenet", fun d _ affine => buildStem1Imagenet d affine),
    ("pool_cifar",     fun _ _ _ => .ok (.poolCifar, [])),
    ("pool_imagenet",  fun _ _ _ => .ok (.poolImagenet, [])),
    ("channel_adjust", fun d _ affine => buildChannelAdjust d affine) ]

/-- `Op.register_op`: mutates the global `_ops_factory`.  The pair returned is
(raised exception or unit, the registry after the call): the `raise` happens
before any write, so on error the registry is returned unchanged; on an
existing name with `exists_ok` the old entry is kept ("no need to register
again"). -/
def register_op (name : String) (factory_fn : OpFactoryFn) (exists_ok : Bool)
    (reg : List (String × OpFactoryFn)) :
    Except OpError Unit × List (String × OpFactoryFn) :=
  if (reg.lookup name).isSome then
    if !exists_ok then (.error (.argumentError name), reg)
    else (.ok (), reg)
  else (.ok (), reg ++ [(name, factory_fn)])

/-- The source default of `register_op`'s `exists_ok` parameter is `True`. -/
def register_op_default_exists_ok : Bool := true

/-- A live `Op` instance: its concrete class, the descriptor attached by
`Op.create`, and its current parameter state (`state_dict()`). -/
structure Op where
  kind : OpKind
  desc : OpDesc
  sd : StateDict
deriving DecidableEq, Repr

/-- `Op.get_trainables`: `\x7b'name': self.desc.name, 'sd': self.state_dict()\x7d`. -/
def Op.get_trainables (op : Op) : Trainables :=
  ⟨op.desc.name, op.sd⟩

/-- `load_state_dict(sd, strict=False)`: every parameter of the module whose
key occurs in the loaded dict takes the loaded value; keys missing from the
loaded dict keep their current value; extra loaded keys are ignored. -/
def loadStateDict (cur loaded : StateDict) : StateDict :=
  cur.map (fun kv =>
    match loaded.lookup kv.1 with
    | some v => (kv.1, v)
    | none => kv)

/-- `Op.set_trainables`: no-op on `None`; otherwise asserts the recorded name
matches `self.desc.name` and loads the state dict with `strict=False`. -/
def Op.set_trainables (op : Op) (state_dict : Option Trainables) :
    Except OpError Op :=
  match state_dict with
  | none => .ok op
  | some t =>
      if t.name = op.desc.name then
        .ok { op with sd := loadStateDict op.sd t.sd }
      else
        .error .assertionError

/-- `Op.create`: `_ops_factory[op_desc.name](op_desc, alphas, affine)` (a dict
miss raises `KeyError`), then attach `op.desc = op_desc` and load any
pre-trained weights via `set_trainables`. -/
def Op.create (op_desc : OpDesc) (affine : Bool) (alphas : List Param) :
    Except OpError Op :=
  match _ops_factory.lookup op_desc.name with
  | none => .error (.keyError op_desc.name)
  | some f =>
      (f op_desc alphas affine).bind (fun ks =>
        Op.set_trainables { kind := ks.1, desc := op_desc, sd := ks.2 }
          op_desc.trainables)

/-- `nn.Module.parameters()` of the instance, indexed by state_dict entry. -/
def Op.parameters (op : Op) : List Param := op.sd

/-- Base-class `Op.alphas`: yields nothing, and no operation in
`operations.py` overrides it. -/
def Op.alphas (_op : Op) : List Param := []

/-- Base-class `Op.weights`: yields every ordinary parameter, and no
operation in `operations.py` overrides it. -/
def Op.weights (op : Op) : List Param := op.parameters

/-- `Op.finalize`: a deep copy of `self.desc` with `trainables` replaced by a
deep copy of `get_trainables()`, paired with rank `None`.  (On the immutable
values of this embedding `copy.deepcopy` is the identity; aliasing is treated
in the heap model below.) -/
def Op.finalize (op : Op) : OpDesc × Option Rat :=
  ({ op.desc with trainables := some op.get_trainables }, none)

/-- `can_drop_path`, dispatched exactly as the class hierarchy does: the base
class returns `True`; `SkipConnect` (either inner module), `Identity`,
`StemCifar`, `Stem0Imagenet`, `Stem1Imagenet`, `PoolImagenet`, `PoolCifar`
and `ChannelAdjust` override it to `False`. -/
def Op.can_drop_path (op : Op) : Bool :=
  match op.kind with
  | .skipConnect _ => false
  | .identity => false
  | .stemCifar => false
  | .stem0Imagenet => false
  | .stem1Imagenet => false
  | .poolImagenet => false
  | .poolCifar => false
  | .channelAdjust => false
  | _ => true

/-! ### Helper lemmas and probe values -/

@[simp] theorem bindOk {ε α β : Type _} (a : α) (f : α → Except ε β) :
    (Except.ok a : Except ε α) >>= f = f a := rfl

@[simp] theorem bindError {ε α β : Type _} (e : ε) (f : α → Except ε β) :
    (Except.error e : Except ε α) >>= f = Except.error e := rfl

/-- `set_trainables` never changes which class the instance belongs to. -/
theorem set_trainables_kind (op0 op : Op) (tr : Option Trainables)
    (h : op0.set_trainables tr = .ok op) : op.kind = op0.kind := by
  cases tr with
  | none =>
    simp only [Op.set_trainables, Except.ok.injEq] at h
    rw [← h]
  | some t =>
    simp only [Op.set_trainables] at h
    split at h
    · simp only [Except.ok.injEq] at h
      rw [← h]
    · exact Except.noConfusion h

/-- A successful `create` went through the named factory, whose instance
determines the class of the result. -/
theorem create_kind_spec (d : OpDesc) (affine : Bool) (alphas : List Param)
    (op : Op) (h : Op.create d affine alphas = .ok op) :
    ∃ f ks, _ops_factory.lookup d.name = some f ∧
      f d alphas affine = .ok ks ∧ op.kind = ks.1 := by
  unfold Op.create at h
  cases hl : _ops_factory.lookup d.name with
  | none => rw [hl] at h; exact Except.noConfusion h
  | some f =>
    rw [hl] at h
    replace h : (f d alphas affine).bind (fun ks =>
        Op.set_trainables { kind := ks.1, desc := d, sd := ks.2 }
          d.trainables) = .ok op := h
    cases hks : f d alphas affine with
    | error e => rw [hks] at h; exact Except.noConfusion h
    | ok ks =>
      rw [hks] at h
      exact ⟨f, ks, rfl, hks, set_trainables_kind _ _ _ h⟩

/-- Shape of a successful `PoolBN` construction. -/
theorem buildPoolBN_kind (pt : String) (d : OpDesc) (affine : Bool)
    (ks : OpKind × StateDict) (h : buildPoolBN pt d affine = .ok ks) :
    ∃ b, ks.1 = .poolBN b := by
  unfold buildPoolBN getConv getStride at h
  cases hc : d.params.conv with
  | none => simp only [hc] at h; exact Except.noConfusion h
  | some c =>
    cases hs : d.params.stride with
    | none => simp only [hc, hs] at h; exact Except.noConfusion h
    | some s =>
      simp only [hc, hs, bindOk] at h
      split at h
      · exact ⟨true, by rw [← Except.ok.inj h]⟩
      · split at h
        · exact ⟨false, by rw [← Except.ok.inj h]⟩
        · exact Except.noConfusion h

/-- Lookup distributes over append when the key misses the first list. -/
theorem lookup_append_of_none {β : Type _} (l₁ l₂ : List (String × β))
    (a : String) (h : l₁.lookup a = none) :
    (l₁ ++ l₂).lookup a = l₂.lookup a := by
  induction l₁ with
  | nil => simp
  | cons x t ih =>
    obtain ⟨k, v⟩ := x
    by_cases hak : a = k
    · simp [List.lookup, hak] at h
    · simp only [List.cons_append, List.lookup] at h ⊢
      have hb : (a == k) = false := by simp [hak]
      rw [hb] at h ⊢
      exact ih h

/-- Shape of a successful `SkipConnect` construction. -/
theorem buildSkipConnect_kind (d : OpDesc) (affine : Bool)
    (ks : OpKind × StateDict) (h : buildSkipConnect d affine = .ok ks) :
    ∃ b, ks.1 = .skipConnect b := by
  unfold buildSkipConnect factorizedReduceSd getStride getConv at h
  cases hs : d.params.stride with
  | none => simp only [hs] at h; exact Except.noConfusion h
  | some s =>
    simp only [hs, bindOk] at h
    split at h
    · exact ⟨false, by rw [← Except.ok.inj h]⟩
    · cases hc : d.params.conv with
      | none => simp only [hc] at h; exact Except.noConfusion h
      | some c =>
        simp only [hc, bindOk] at h
        split at h
        · simp only [bindOk] at h
          exact ⟨true, by rw [← Except.ok.inj h]⟩
        · exact Except.noConfusion h

/-- Shape of a successful `DilConv` construction. -/
theorem buildDilConv_kind (kernel padding dilation : Nat) (d : OpDesc)
    (affine : Bool) (ks : OpKind × StateDict)
    (h : buildDilConv kernel padding dilation d affine = .ok ks) :
    ks.1 = .dilConv kernel padding dilation := by
  unfold buildDilConv dilConvSd getStride getConv at h
  cases hs : d.params.stride with
  | none => simp only [hs] at h; exact Except.noConfusion h
  | some s =>
    simp only [hs, bindOk] at h
    cases hc : d.params.conv with
    | none => simp only [hc] at h; exact Except.noConfusion h
    | some c =>
      simp only [hc, bindOk] at h
      rw [← Except.ok.inj h]

/-- Shape of a successful `SepConv` construction. -/
theorem buildSepConv_kind (kernel padding : Nat) (d : OpDesc) (affine : Bool)
    (ks : OpKind × StateDict) (h : buildSepConv kernel padding d affine = .ok ks) :
    ks.1 = .sepConv kernel padding := by
  unfold buildSepConv dilConvSd getStride getConv at h
  cases hs : d.params.stride with
  | none => simp only [hs] at h; exact Except.noConfusion h
  | some s =>
    simp only [hs, bindOk] at h
    cases hc : d.params.conv with
    | none => simp only [hc] at h; exact Except.noConfusion h
    | some c =>
      simp only [hc, bindOk] at h
      rw [← Except.ok.inj h]

/-- Shape of a successful `FacConv` construction. -/
theorem buildFacConv_kind (kernel_length padding : Nat) (d : OpDesc)
    (affine : Bool) (ks : OpKind × StateDict)
    (h : buildFacConv kernel_length padding d affine = .ok ks) :
    ks.1 = .facConv kernel_length padding := by
  unfold buildFacConv getConv getStride at h
  cases hc : d.params.conv with
  | none => simp only [hc] at h; exact Except.noConfusion h
  | some c =>
    cases hs : d.params.stride with
    | none => simp only [hc, hs] at h; exact Except.noConfusion h
    | some s =>
      simp only [hc, hs, bindOk] at h
      rw [← Except.ok.inj h]

/-- Shape of a successful `ReLUConvBN` construction. -/
theorem buildReLUConvBN_kind (kernel stride padding : Nat) (d : OpDesc)
    (affine : Bool) (ks : OpKind × StateDict)
    (h : buildReLUConvBN kernel stride padding d affine = .ok ks) :
    ks.1 = .reluConvBN kernel stride padding := by
  unfold buildReLUConvBN getConv at h
  cases hc : d.params.conv with
  | none => simp only [hc] at h; exact Except.noConfusion h
  | some c =>
    simp only [hc, bindOk] at h
    rw [← Except.ok.inj h]

/-- Shape of a successful `Zero` construction. -/
theorem buildZero_kind (d : OpDesc) (ks : OpKind × StateDict)
    (h : buildZero d = .ok ks) : ∃ s, ks.1 = .zero s := by
  unfold buildZero getStride at h
  cases hs : d.params.stride with
  | none => simp only [hs] at h; exact Except.noConfusion h
  | some s =>
    simp only [hs, bindOk] at h
    exact ⟨s, by rw [← Except.ok.inj h]⟩

/-- Shape of a successful standalone `FactorizedReduce` construction
(the `prepr_reduce` factory). -/
theorem preprReduce_kind (d : OpDesc) (affine : Bool) (ks : OpKind × StateDict)
    (h : (factorizedReduceSd "" d affine >>= fun sd =>
        (Except.ok (OpKind.factorizedReduce, sd) :
          Except OpError (OpKind × StateDict))) = .ok ks) :
    ks.1 = .factorizedReduce := by
  unfold factorizedReduceSd getConv at h
  cases hc : d.params.conv with
  | none => simp only [hc] at h; exact Except.noConfusion h
  | some c =>
    simp only [hc, bindOk] at h
    split at h
    · simp only [bindOk] at h
      rw [← Except.ok.inj h]
    · exact Except.noConfusion h

/-- Shape of a successful `StemCifar` construction. -/
theorem buildStemCifar_kind (d : OpDesc) (affine : Bool)
    (ks : OpKind × StateDict) (h : buildStemCifar d affine = .ok ks) :
    ks.1 = .stemCifar := by
  unfold buildStemCifar getConv at h
  cases hc : d.params.conv with
  | none => simp only [hc] at h; exact Except.noConfusion h
  | some c =>
    simp only [hc, bindOk] at h
    rw [← Except.ok.inj h]

/-- Shape of a successful `Stem0Imagenet` construction. -/
theorem buildStem0Imagenet_kind (d : OpDesc) (affine : Bool)
    (ks : OpKind × StateDict) (h : buildStem0Imagenet d affine = .ok ks) :
    ks.1 = .stem0Imagenet := by
  unfold buildStem0Imagenet getConv at h
  cases hc : d.params.conv with
  | none => simp only [hc] at h; exact Except.noConfusion h
  | some c =>
    simp only [hc, bindOk] at h
    rw [← Except.ok.inj h]

/-- Shape of a successful `Stem1Imagenet` construction. -/
theorem buildStem1Imagenet_kind (d : OpDesc) (affine : Bool)
    (ks : OpKind × StateDict) (h : buildStem1Imagenet d affine = .ok ks) :
    ks.1 = .stem1Imagenet := by
  unfold buildStem1Imagenet getConv at h
  cases hc : d.params.conv with
  | none => simp only [hc] at h; exact Except.noConfusion h
  | some c =>
    simp only [hc, bindOk] at h
    rw [← Except.ok.inj h]

/-- With duplicate-free keys, `lookup` finds the value of any member pair. -/
theorem lookup_eq_some_of_nodup {β : Type _} (l : List (String × β))
    (k : String) (v : β) (hn : (l.map Prod.fst).Nodup) (hm : (k, v) ∈ l) :
    l.lookup k = some v := by
  induction l with
  | nil => cases hm
  | cons x t ih =>
    obtain ⟨a, b⟩ := x
    simp only [List.map_cons, List.nodup_cons] at hn
    rcases List.mem_cons.mp hm with heq | hmt
    · injection heq with h1 h2
      subst h1
      subst h2
      simp [List.lookup]
    · have hka : k ≠ a := by
        rintro rfl
        exact hn.1 (List.mem_map.mpr ⟨(k, v), hmt, rfl⟩)
      have hb : (k == a) = false := beq_eq_false_iff_ne.mpr hka
      simp only [List.lookup, hb]
      exact ih hn.2 hmt

/-- Loading a snapshot whose keys coincide with the module's (in order, and
duplicate-free) restores exactly the snapshot. -/
theorem loadStateDict_eq (cur loaded : StateDict)
    (hk : cur.map Prod.fst = loaded.map Prod.fst)
    (hn : (loaded.map Prod.fst).Nodup) :
    loadStateDict cur loaded = loaded := by
  have hlen : cur.length = loaded.length := by
    have h2 := congrArg List.length hk
    simpa using h2
  apply List.ext_getElem
  · simpa [loadStateDict] using hlen
  · intro i h1 h2
    have hcur : i < cur.length := by
      simpa [loadStateDict] using h1
    have hfst : (cur.get ⟨i, hcur⟩).1 = (loaded.get ⟨i, h2⟩).1 := by
      have h3 := congrArg (fun l => l[i]?) hk
      simp only [List.getElem?_map] at h3
      rw [List.getElem?_eq_getElem hcur, List.getElem?_eq_getElem h2] at h3
      simpa using h3
    have hmem : loaded.get ⟨i, h2⟩ ∈ loaded := List.get_mem _ _ h2
    have hlk : loaded.lookup (cur.get ⟨i, hcur⟩).1
        = some (loaded.get ⟨i, h2⟩).2 := by
      rw [hfst]
      refine lookup_eq_some_of_nodup loaded _ _ hn ?_
      simp only [Prod.mk.eta]
      exact hmem
    simp only [loadStateDict, List.getElem_map, List.get_eq_getElem] at hlk ⊢
    rw [hlk]
    exact Prod.ext hfst rfl

/-- A replacement factory used to probe registration behavior. -/
def probeFactory : OpFactoryFn := fun _ _ _ => .error .valueError

/-- A descriptor for the parameter-free `identity` catalog entry. -/
def probeDesc : OpDesc := ⟨"identity", ⟨none, none, none, none⟩, none⟩

/-- The operation `Op.create probeDesc true []` builds. -/
def probeOp : Op := ⟨.identity, probeDesc, []⟩

/-! ### Claim theorems: registry -/

/-- C1, counterexample: with the source default `exists_ok = True`,
registering an existing name (`identity`) raises nothing and leaves the
registry unchanged, so the claim's reading that the default disallows
overwrite (and hence errors on a duplicate) is false on the code. -/
theorem c1_default_tolerates_duplicate :
    register_op "identity" probeFactory register_op_default_exists_ok
        _ops_factory = (.ok (), _ops_factory) := rfl

/-- C1 (amended): with overwrite explicitly disallowed (`exists_ok = false`,
which is not the source default), `register_op` on an existing name fails
with `ArgumentError` (the spec's `DuplicateNameError`) and returns the
registry unchanged, so that name's entry is untouched; on a fresh name it
succeeds and installs the factory. -/
theorem c1_register_disallow_overwrite :
    ∀ (name : String) (f : OpFactoryFn) (reg : List (String × OpFactoryFn)),
      ((reg.lookup name).isSome = true →
        register_op name f false reg = (.error (.argumentError name), reg)) ∧
      (reg.lookup name = none →
        (register_op name f false reg).1 = .ok () ∧
        (register_op name f false reg).2.lookup name = some f) := by
  intro name f reg
  constructor
  · intro h
    simp [register_op, h]
  · intro h
    refine ⟨by simp [register_op, h], ?_⟩
    simp only [register_op, h, Option.isSome_none, Bool.false_eq_true, if_false]
    rw [lookup_append_of_none _ _ _ h]
    simp [List.lookup]

/-- Witness for `c1_register_disallow_overwrite` at concrete inputs. -/
theorem c1_register_disallow_overwrite_witness :
    register_op "identity" probeFactory false _ops_factory
        = (.error (.argumentError "identity"), _ops_factory) ∧
      (register_op "my_custom_op" probeFactory false _ops_factory).2.lookup
          "my_custom_op" = some probeFactory :=
  ⟨(c1_register_disallow_overwrite "identity" probeFactory _ops_factory).1 rfl,
   ((c1_register_disallow_overwrite "my_custom_op" probeFactory
      _ops_factory).2 rfl).2⟩

/-- C8, counterexample: registering the existing name `identity` with
`exists_ok = True` succeeds without error, yet the catalog afterwards still
maps `identity` to the originally registered factory and not to the newly
supplied one. -/
theorem c8_overwrite_not_installed :
    (register_op "identity" probeFactory true _ops_factory).1 = .ok () ∧
    (register_op "identity" probeFactory true _ops_factory).2.lookup "identity"
      ≠ some probeFactory := by
  refine ⟨rfl, ?_⟩
  intro h
  have h0 : (register_op "identity" probeFactory true _ops_factory).2.lookup
      "identity" = some (fun _ _ _ => .ok (.identity, [])) := rfl
  have heq : (fun (_ : OpDesc) (_ : List Param) (_ : Bool) =>
      (Except.ok (OpKind.identity, ([] : StateDict)) : Except OpError (OpKind × StateDict)))
        = probeFactory := Option.some.inj (h0.symm.trans h)
  have happ := congrFun (congrFun (congrFun heq probeDesc) []) true
  simp only [probeFactory] at happ
  exact Except.noConfusion happ

/-- C8 (amended): `register_op` on an existing name with `exists_ok = True`
succeeds without error but keeps the previously registered factory; the
newly supplied factory is never installed (the code never overwrites). -/
theorem c8_register_keeps_old_factory :
    ∀ (name : String) (f g : OpFactoryFn) (reg : List (String × OpFactoryFn)),
      reg.lookup name = some f →
      register_op name g true reg = (.ok (), reg) ∧
      (register_op name g true reg).2.lookup name = some f := by
  intro name f g reg h
  have hs : (reg.lookup name).isSome = true := by simp [h]
  exact ⟨by simp [register_op, hs], by simp [register_op, hs, h]⟩

/-- Witness for `c8_register_keeps_old_factory` at concrete inputs. -/
theorem c8_register_keeps_old_factory_witness :
    register_op "identity" probeFactory true _ops_factory
        = (.ok (), _ops_factory) ∧
      (register_op "identity" probeFactory true _ops_factory).2.lookup
          "identity" = some (fun _ _ _ => .ok (.identity, [])) :=
  c8_register_keeps_old_factory "identity" _ probeFactory _ops_factory rfl

/-! ### Claim theorems: create and parameter partitions -/

/-- C2: `create` on a name absent from the catalog fails with `KeyError`
(the spec's `UnknownOperationError`) and never returns a fallback operation;
on a present name it instantiates exactly that name's factory on the
descriptor, attaches the descriptor and loads its trainables. -/
theorem c2_create_lookup :
    ∀ (d : OpDesc) (affine : Bool) (alphas : List Param),
      (_ops_factory.lookup d.name = none →
        Op.create d affine alphas = .error (.keyError d.name)) ∧
      (∀ f, _ops_factory.lookup d.name = some f →
        Op.create d affine alphas =
          (f d alphas affine).bind (fun ks =>
            Op.set_trainables { kind := ks.1, desc := d, sd := ks.2 }
              d.trainables)) := by
  intro d affine alphas
  constructor
  · intro h
    simp [Op.create, h]
  · intro f h
    simp [Op.create, h]

/-- Witness for `c2_create_lookup`: an absent name errors, a present name
builds the factory's operation. -/
theorem c2_create_lookup_witness :
    Op.create ⟨"bogus_op", ⟨none, none, none, none⟩, none⟩ true []
        = .error (.keyError "bogus_op") ∧
    Op.create probeDesc true [] = .ok probeOp := by
  constructor
  · exact (c2_create_lookup ⟨"bogus_op", ⟨none, none, none, none⟩, none⟩
      true []).1 rfl
  · rw [(c2_create_lookup probeDesc true []).2
      (fun _ _ _ => .ok (.identity, [])) rfl]
    rfl

/-- C3: operations constructed from the built-in catalog own no architecture
weights: `alphas()` yields nothing, `weights()` yields exactly the ordinary
trainable parameters, and the two partitions never overlap. -/
theorem c3_partitions_disjoint :
    ∀ (d : OpDesc) (affine : Bool) (op : Op),
      Op.create d affine [] = .ok op →
      op.alphas = [] ∧ op.weights = op.parameters ∧
        ∀ p, p ∈ op.weights → p ∉ op.alphas := by
  intro d affine op _
  exact ⟨rfl, rfl, fun p _ hp => by simp [Op.alphas] at hp⟩

/-- Witness for `c3_partitions_disjoint` at the `identity` catalog entry. -/
theorem c3_partitions_disjoint_witness :
    probeOp.alphas = [] ∧ probeOp.weights = probeOp.parameters ∧
      ∀ p, p ∈ probeOp.weights → p ∉ probeOp.alphas :=
  c3_partitions_disjoint probeDesc true probeOp rfl

/-- C4: operations constructed from the built-in catalog report
`can_drop_path()` as the claim lists it: false for the identity passthrough
(`identity`), for `skip_connect` at either stride (both the reducing and the
non-reducing inner module), and for the stems; true for every convolution and
pooling candidate, which do not override the base-class default. -/
theorem c4_can_drop_path :
    ∀ (d : OpDesc) (affine : Bool) (op : Op),
      Op.create d affine [] = .ok op →
      ((d.name = "identity" ∨ d.name = "skip_connect" ∨
        d.name = "stem_cifar" ∨ d.name = "stem0_imagenet" ∨
        d.name = "stem1_imagenet") → op.can_drop_path = false) ∧
      ((d.name = "max_pool_3x3" ∨ d.name = "avg_pool_3x3" ∨
        d.name = "sep_conv_3x3" ∨ d.name = "sep_conv_5x5" ∨
        d.name = "sep_conv_7x7" ∨ d.name = "dil_conv_3x3" ∨
        d.name = "dil_conv_5x5" ∨ d.name = "conv_7x1_1x7" ∨
        d.name = "prepr_normal" ∨ d.name = "prepr_reduce" ∨
        d.name = "none") → op.can_drop_path = true) := by
  intro d affine op h
  obtain ⟨f, ks, hf, hks, hkind⟩ := create_kind_spec d affine [] op h
  constructor
  · rintro (hn | hn | hn | hn | hn) <;> rw [hn] at hf
    · have hfe := Option.some.inj ((show _ops_factory.lookup "identity"
        = some (fun _ _ _ => .ok (.identity, [])) from rfl).symm.trans hf)
      rw [← hfe] at hks
      simp [Op.can_drop_path, hkind, ← Except.ok.inj hks]
    · have hfe := Option.some.inj ((show _ops_factory.lookup "skip_connect"
        = some (fun d _ affine => buildSkipConnect d affine) from rfl).symm.trans hf)
      rw [← hfe] at hks
      obtain ⟨b, hb⟩ := buildSkipConnect_kind d affine ks hks
      simp [Op.can_drop_path, hkind, hb]
    · have hfe := Option.some.inj ((show _ops_factory.lookup "stem_cifar"
        = some (fun d _ affine => buildStemCifar d affine) from rfl).symm.trans hf)
      rw [← hfe] at hks
      simp [Op.can_drop_path, hkind, buildStemCifar_kind d affine ks hks]
    · have hfe := Option.some.inj ((show _ops_factory.lookup "stem0_imagenet"
        = some (fun d _ affine => buildStem0Imagenet d affine) from rfl).symm.trans hf)
      rw [← hfe] at hks
      simp [Op.can_drop_path, hkind, buildStem0Imagenet_kind d affine ks hks]
    · have hfe := Option.some.inj ((show _ops_factory.lookup "stem1_imagenet"
        = some (fun d _ affine => buildStem1Imagenet d affine) from rfl).symm.trans hf)
      rw [← hfe] at hks
      simp [Op.can_drop_path, hkind, buildStem1Imagenet_kind d affine ks hks]
  · rintro (hn | hn | hn | hn | hn | hn | hn | hn | hn | hn | hn) <;> rw [hn] at hf
    · have hfe := Option.some.inj ((show _ops_factory.lookup "max_pool_3x3"
        = some (fun d _ affine => buildPoolBN "max" d affine) from rfl).symm.trans hf)
      rw [← hfe] at hks
      obtain ⟨b, hb⟩ := buildPoolBN_kind "max" d affine ks hks
      simp [Op.can_drop_path, hkind, hb]
    · have hfe := Option.some.inj ((show _ops_factory.lookup "avg_pool_3x3"
        = some (fun d _ affine => buildPoolBN "avg" d affine) from rfl).symm.trans hf)
      rw [← hfe] at hks
      obtain ⟨b, hb⟩ := buildPoolBN_kind "avg" d affine ks hks
      simp [Op.can_drop_path, hkind, hb]
    · have hfe := Option.some.inj ((show _ops_factory.lookup "sep_conv_3x3"
        = some (fun d _ affine => buildSepConv 3 1 d affine) from rfl).symm.trans hf)
      rw [← hfe] at hks
      simp [Op.can_drop_path, hkind, buildSepConv_kind 3 1 d affine ks hks]
    · have hfe := Option.some.inj ((show _ops_factory.lookup "sep_conv_5x5"
        = some (fun d _ affine => buildSepConv 5 2 d affine) from rfl).symm.trans hf)
      rw [← hfe] at hks
      simp [Op.can_drop_path, hkind, buildSepConv_kind 5 2 d affine ks hks]
    · have hfe := Option.some.inj ((show _ops_factory.lookup "sep_conv_7x7"
        = some (fun d _ affine => buildSepConv 7 3 d affine) from rfl).symm.trans hf)
      rw [← hfe] at hks
      simp [Op.can_drop_path, hkind, buildSepConv_kind 7 3 d affine ks hks]
    · have hfe := Option.some.inj ((show _ops_factory.lookup "dil_conv_3x3"
        = some (fun d _ affine => buildDilConv 3 2 2 d affine) from rfl).symm.trans hf)
      rw [← hfe] at hks
      simp [Op.can_drop_path, hkind, buildDilConv_kind 3 2 2 d affine ks hks]
    · have hfe := Option.some.inj ((show _ops_factory.lookup "dil_conv_5x5"
        = some (fun d _ affine => buildDilConv 5 4 2 d affine) from rfl).symm.trans hf)
      rw [← hfe] at hks
      simp [Op.can_drop_path, hkind, buildDilConv_kind 5 4 2 d affine ks hks]
    · have hfe := Option.some.inj ((show _ops_factory.lookup "conv_7x1_1x7"
        = some (fun d _ affine => buildFacConv 7 3 d affine) from rfl).symm.trans hf)
      rw [← hfe] at hks
      simp [Op.can_drop_path, hkind, buildFacConv_kind 7 3 d affine ks hks]
    · have hfe := Option.some.inj ((show _ops_factory.lookup "prepr_normal"
        = some (fun d _ affine => buildReLUConvBN 1 1 0 d affine) from rfl).symm.trans hf)
      rw [← hfe] at hks
      simp [Op.can_drop_path, hkind, buildReLUConvBN_kind 1 1 0 d affine ks hks]
    · have hfe := Option.some.inj ((show _ops_factory.lookup "prepr_reduce"
        = some (fun d _ affine => factorizedReduceSd "" d affine >>= fun sd =>
          .ok (.factorizedReduce, sd)) from rfl).symm.trans hf)
      rw [← hfe] at hks
      simp [Op.can_drop_path, hkind, preprReduce_kind d affine ks hks]
    · have hfe := Option.some.inj ((show _ops_factory.lookup "none"
        = some (fun d _ _ => buildZero d) from rfl).symm.trans hf)
      rw [← hfe] at hks
      obtain ⟨s, hs⟩ := buildZero_kind d ks hks
      simp [Op.can_drop_path, hkind, hs]

/-- A `skip_connect` descriptor at stride 1 and the instance it builds. -/
def skipDesc1 : OpDesc := ⟨"skip_connect", ⟨none, some 1, none, none⟩, none⟩

/-- see `skipDesc1`. -/
def skipOp1 : Op := ⟨.skipConnect false, skipDesc1, []⟩

/-- A `skip_connect` descriptor at stride 2 and the instance it builds. -/
def skipDesc2 : OpDesc :=
  ⟨"skip_connect", ⟨some ⟨4, 4⟩, some 2, none, none⟩, none⟩

/-- see `skipDesc2`. -/
def skipOp2 : Op :=
  ⟨.skipConnect true, skipDesc2,
    convSd "_op.conv_1" ++ convSd "_op.conv_2" ++ bnSd "_op.bn" true⟩

/-- A `none` (Zero) descriptor at stride 1 and the instance it builds. -/
def zeroDesc : OpDesc := ⟨"none", ⟨none, some 1, none, none⟩, none⟩

/-- see `zeroDesc`. -/
def zeroOp : Op := ⟨.zero 1, zeroDesc, []⟩

/-- A `max_pool_3x3` descriptor and the instance it builds. -/
def poolDesc : OpDesc :=
  ⟨"max_pool_3x3", ⟨some ⟨2, 2⟩, some 1, none, none⟩, none⟩

/-- see `poolDesc`. -/
def poolOp : Op := ⟨.poolBN true, poolDesc, bnSd "bn" true⟩

/-- Witness for `c4_can_drop_path`: identity and skip connections at both
strides report false; a pooling and the `none` candidate report true. -/
theorem c4_can_drop_path_witness :
    probeOp.can_drop_path = false ∧
    skipOp1.can_drop_path = false ∧
    skipOp2.can_drop_path = false ∧
    poolOp.can_drop_path = true ∧
    zeroOp.can_drop_path = true :=
  ⟨(c4_can_drop_path probeDesc true probeOp rfl).1 (Or.inl rfl),
   (c4_can_drop_path skipDesc1 true skipOp1 rfl).1 (Or.inr (Or.inl rfl)),
   (c4_can_drop_path skipDesc2 true skipOp2 rfl).1 (Or.inr (Or.inl rfl)),
   (c4_can_drop_path poolDesc true poolOp rfl).2 (Or.inl rfl),
   (c4_can_drop_path zeroDesc true zeroOp rfl).2 (by decide)⟩

/-- C10: restoring trainable state is guarded by name identity:
`set_trainables None` is a no-op leaving the parameters untouched, and a
blob recorded under a different operation name fails the assertion. -/
theorem c10_set_trainables_guard :
    ∀ (op : Op) (t : Trainables),
      op.set_trainables none = .ok op ∧
      (t.name ≠ op.desc.name →
        op.set_trainables (some t) = .error .assertionError) := by
  intro op t
  refine ⟨rfl, fun h => ?_⟩
  simp [Op.set_trainables, h]

/-- Witness for `c10_set_trainables_guard` at concrete inputs. -/
theorem c10_set_trainables_guard_witness :
    probeOp.set_trainables none = .ok probeOp ∧
    probeOp.set_trainables (some ⟨"none", [("w", 1)]⟩)
      = .error .assertionError :=
  ⟨(c10_set_trainables_guard probeOp ⟨"none", [("w", 1)]⟩).1,
   (c10_set_trainables_guard probeOp ⟨"none", [("w", 1)]⟩).2 (by decide)⟩

/-! ### Claim theorems: finalize round-trip -/

/-- C6: saving then restoring trainable state round-trips: `finalize`
snapshots the operation's current parameter state into the descriptor it
returns, and `create` on that descriptor — whenever the named factory builds
an instance with the same parameter keys (same module structure) — restores
exactly that parameter state into the new instance. -/
theorem c6_finalize_create_roundtrip :
    ∀ (op : Op) (affine : Bool) (f : OpFactoryFn) (ks : OpKind × StateDict),
      _ops_factory.lookup op.desc.name = some f →
      f (op.finalize).1 [] affine = .ok ks →
      ks.2.map Prod.fst = op.sd.map Prod.fst →
      (op.sd.map Prod.fst).Nodup →
      Op.create (op.finalize).1 affine []
        = .ok ⟨ks.1, (op.finalize).1, op.sd⟩ := by
  intro op affine f ks hf hks hkeys hnd
  unfold Op.create
  rw [show ((op.finalize).1.name) = op.desc.name from rfl, hf]
  show (f (op.finalize).1 [] affine).bind (fun ks2 =>
      Op.set_trainables ⟨ks2.1, (op.finalize).1, ks2.2⟩
        (op.finalize).1.trainables) = _
  rw [hks]
  show Op.set_trainables ⟨ks.1, (op.finalize).1, ks.2⟩
      (some ⟨op.desc.name, op.sd⟩) = _
  simp only [Op.set_trainables]
  rw [if_pos (show op.desc.name = (op.finalize).1.name from rfl),
    loadStateDict_eq ks.2 op.sd hkeys hnd]

/-- A trained `max_pool_3x3` instance: the keys of `bnSd "bn" true`, with
values moved away from initialisation by training. -/
def trainedPoolOp : Op :=
  ⟨.poolBN true, poolDesc,
    [("bn.weight", 2), ("bn.bias", 3), ("bn.running_mean", 4),
     ("bn.running_var", 5)]⟩

/-- Witness for `c6_finalize_create_roundtrip`: re-creating a trained
pooling operation from its finalized descriptor restores the trained
state exactly. -/
theorem c6_finalize_create_roundtrip_witness :
    Op.create (trainedPoolOp.finalize).1 true []
      = .ok ⟨.poolBN true, (trainedPoolOp.finalize).1, trainedPoolOp.sd⟩ :=
  c6_finalize_create_roundtrip trainedPoolOp true
    (fun d _ affine => buildPoolBN "max" d affine)
    (.poolBN true, bnSd "bn" true) rfl rfl rfl (by decide)

/-! ### Heap model for `finalize`'s aliasing behavior

`Op.finalize` calls `copy.deepcopy` twice: the returned descriptor and its
`trainables` blob are fresh objects.  To state that, Python objects are given
addresses: descriptors live in `Heap.descs`, state-dict blobs in
`Heap.blobs`; a descriptor's `trainables` field holds the recorded name and
the address of its blob; a live op holds the address of its attached
descriptor and of its own parameter storage. -/

/-- A heap-resident `OpDesc`: `trainables` refers to a blob by address. -/
structure HOpDesc where
  name : String
  params : OpParams
  trainables : Option (String × Nat)
deriving DecidableEq, Repr

/-- The object heap. -/
structure Heap where
  descs : List HOpDesc
  blobs : List StateDict
deriving DecidableEq, Repr

/-- A live op under the heap model. -/
structure HOp where
  descAddr : Nat
  sdAddr : Nat
deriving DecidableEq, Repr

/-- placeholder for reads of dangling addresses. -/
def emptyHDesc : HOpDesc := ⟨"", ⟨none, none, none, none⟩, none⟩

/-- Read the descriptor at an address. -/
def Heap.descAt (h : Heap) (a : Nat) : Option HOpDesc := h.descs[a]?

/-- Read the blob at an address. -/
def Heap.blobAt (h : Heap) (a : Nat) : Option StateDict := h.blobs[a]?

/-- Mutate the descriptor object at an address in place. -/
def Heap.setDesc (h : Heap) (a : Nat) (d : HOpDesc) : Heap :=
  ⟨h.descs.set a d, h.blobs⟩

/-- Mutate the blob object at an address in place. -/
def Heap.setBlob (h : Heap) (a : Nat) (v : StateDict) : Heap :=
  ⟨h.descs, h.blobs.set a v⟩

/-- `Op.finalize` on the heap: `desc = copy.deepcopy(self.desc)` allocates a
fresh descriptor; `desc.trainables = copy.deepcopy(self.get_trainables())`
points it at a freshly allocated copy of the op's state_dict.  Returns the
heap after the call, the address of the returned descriptor, and the rank
(always `None`). -/
def finalizeH (h : Heap) (op : HOp) : Heap × Nat × Option Rat :=
  let d := (h.descAt op.descAddr).getD emptyHDesc
  let sd := (h.blobAt op.sdAddr).getD []
  let newDesc : HOpDesc := ⟨d.name, d.params, some (d.name, h.blobs.length)⟩
  (⟨h.descs ++ [newDesc], h.blobs ++ [sd]⟩, h.descs.length, none)

/-- C7: `finalize` never mutates the live object it reads: the op's attached
descriptor and its parameters are unchanged by the call; the returned
descriptor is a fresh object whose `trainables` blob is a fresh copy of the
op's state, and mutating either the returned descriptor or its blob leaves
the live descriptor and the live parameters untouched. -/
theorem c7_finalize_no_mutation :
    ∀ (h : Heap) (op : HOp) (d0 : HOpDesc) (sd0 : StateDict),
      h.descAt op.descAddr = some d0 →
      h.blobAt op.sdAddr = some sd0 →
      ((finalizeH h op).1.descAt op.descAddr = some d0) ∧
      ((finalizeH h op).1.blobAt op.sdAddr = some sd0) ∧
      ((finalizeH h op).2.1 ≠ op.descAddr) ∧
      ((finalizeH h op).1.descAt (finalizeH h op).2.1
        = some ⟨d0.name, d0.params, some (d0.name, h.blobs.length)⟩) ∧
      (h.blobs.length ≠ op.sdAddr) ∧
      ((finalizeH h op).1.blobAt h.blobs.length = some sd0) ∧
      (∀ v, ((finalizeH h op).1.setDesc (finalizeH h op).2.1 v).descAt
          op.descAddr = some d0) ∧
      (∀ v, ((finalizeH h op).1.setBlob h.blobs.length v).blobAt
          op.sdAddr = some sd0) := by
  intro h op d0 sd0 hd hs
  have hdlt : op.descAddr < h.descs.length := by
    have := List.getElem?_eq_some.mp hd
    exact this.1
  have hslt : op.sdAddr < h.blobs.length := by
    have := List.getElem?_eq_some.mp hs
    exact this.1
  have hdesc : (finalizeH h op).1.descAt op.descAddr = some d0 := by
    simp only [finalizeH, Heap.descAt] at hd ⊢
    rw [List.getElem?_append_left hdlt]
    exact hd
  have hblob : (finalizeH h op).1.blobAt op.sdAddr = some sd0 := by
    simp only [finalizeH, Heap.blobAt] at hs ⊢
    rw [List.getElem?_append_left hslt]
    exact hs
  have hd' : h.descs[op.descAddr]? = some d0 := hd
  have hs' : h.blobs[op.sdAddr]? = some sd0 := hs
  refine ⟨hdesc, hblob, Nat.ne_of_gt hdlt, ?_, Nat.ne_of_gt hslt, ?_, ?_, ?_⟩
  · simp only [finalizeH, Heap.descAt, Heap.blobAt]
    rw [List.getElem?_concat_length]
    simp only [hd', Option.getD_some]
  · simp only [finalizeH, Heap.descAt, Heap.blobAt]
    rw [List.getElem?_concat_length]
    simp only [hs', Option.getD_some]
  · intro v
    simp only [finalizeH, Heap.setDesc, Heap.descAt] at hdesc ⊢
    rw [List.getElem?_set_ne (Nat.ne_of_gt hdlt)]
    exact hdesc
  · intro v
    simp only [finalizeH, Heap.setBlob, Heap.blobAt] at hblob ⊢
    rw [List.getElem?_set_ne (Nat.ne_of_gt hslt)]
    exact hblob

/-- A one-descriptor, one-blob heap for the witness. -/
def probeHeap : Heap :=
  ⟨[⟨"max_pool_3x3", ⟨some ⟨2, 2⟩, some 1, none, none⟩, none⟩],
   [[("bn.weight", 2)]]⟩

/-- Witness for `c7_finalize_no_mutation` on `probeHeap`. -/
theorem c7_finalize_no_mutation_witness :
    ((finalizeH probeHeap ⟨0, 0⟩).1.descAt 0
      = some ⟨"max_pool_3x3", ⟨some ⟨2, 2⟩, some 1, none, none⟩, none⟩) ∧
    ((finalizeH probeHeap ⟨0, 0⟩).1.blobAt 0 = some [("bn.weight", 2)]) ∧
    ((finalizeH probeHeap ⟨0, 0⟩).2.1 ≠ 0) ∧
    ((finalizeH probeHeap ⟨0, 0⟩).1.descAt (finalizeH probeHeap ⟨0, 0⟩).2.1
      = some ⟨"max_pool_3x3", ⟨some ⟨2, 2⟩, some 1, none, none⟩,
          some ("max_pool_3x3", 1)⟩) ∧
    (probeHeap.blobs.length ≠ 0) ∧
    ((finalizeH probeHeap ⟨0, 0⟩).1.blobAt probeHeap.blobs.length
      = some [("bn.weight", 2)]) ∧
    (∀ v, ((finalizeH probeHeap ⟨0, 0⟩).1.setDesc
        (finalizeH probeHeap ⟨0, 0⟩).2.1 v).descAt 0
      = some ⟨"max_pool_3x3", ⟨some ⟨2, 2⟩, some 1, none, none⟩, none⟩) ∧
    (∀ v, ((finalizeH probeHeap ⟨0, 0⟩).1.setBlob
        probeHeap.blobs.length v).blobAt 0 = some [("bn.weight", 2)]) :=
  c7_finalize_no_mutation probeHeap ⟨0, 0⟩ _ _ rfl rfl

/-! ### DropPath -/

/-- Modelled from the spec: `utils.drop_path_` lives in
`FastAutoAugment/common/utils.py`, which is not among the sources under
study.  Spec §4.6: "During training only (never during
evaluation/finalization), each Edge's output is independently zeroed with
probability `p(epoch)`".  The Bernoulli draw is modelled by a uniform
sample `u ∈ [0, 1)`: the output is zeroed iff `u < p`, so `p = 1` zeroes
always and `p = 0` never; outside training the input passes unchanged. -/
def drop_path_ (x : List Rat) (p : Rat) (training : Bool) (u : Rat) :
    List Rat :=
  if training = true ∧ u < p then x.map (fun _ => 0) else x

/-- The `DropPath_` module: stores the drop probability `p` and the usual
`nn.Module` training flag. -/
structure DropPath_ where
  p : Rat
  training : Bool
deriving DecidableEq, Repr

/-- `DropPath_.forward`: `utils.drop_path_(x, self.p, self.training)`. -/
def DropPath_.forward (m : DropPath_) (u : Rat) (x : List Rat) : List Rat :=
  drop_path_ x m.p m.training u

/-- C5: DropPath zeroes its input only in training mode: in evaluation mode
the input passes unchanged for every `p`; in training mode `p = 1` yields an
all-zero tensor and `p = 0` leaves the input unchanged. -/
theorem c5_drop_path :
    ∀ (m : DropPath_) (u : Rat) (x : List Rat),
      0 ≤ u → u < 1 →
      (m.training = false → m.forward u x = x) ∧
      (m.training = true → m.p = 1 → m.forward u x = x.map (fun _ => 0)) ∧
      (m.training = true → m.p = 0 → m.forward u x = x) := by
  intro m u x h0 h1
  refine ⟨fun ht => ?_, fun ht hp => ?_, fun ht hp => ?_⟩
  · simp [DropPath_.forward, drop_path_, ht]
  · simp [DropPath_.forward, drop_path_, ht, hp, h1]
  · simp [DropPath_.forward, drop_path_, ht, hp, not_lt.mpr h0]

/-- Witness for `c5_drop_path` at concrete probabilities and inputs. -/
theorem c5_drop_path_witness :
    DropPath_.forward ⟨1, true⟩ (1 / 2) [3, 4]
        = List.map (fun _ => (0 : Rat)) [3, 4] ∧
    DropPath_.forward ⟨0, true⟩ (1 / 2) [3, 4] = [3, 4] ∧
    DropPath_.forward ⟨1, false⟩ (1 / 2) [3, 4] = [3, 4] :=
  ⟨(c5_drop_path ⟨1, true⟩ (1 / 2) [3, 4] (by norm_num) (by norm_num)).2.1
     rfl rfl,
   (c5_drop_path ⟨0, true⟩ (1 / 2) [3, 4] (by norm_num) (by norm_num)).2.2
     rfl rfl,
   (c5_drop_path ⟨1, false⟩ (1 / 2) [3, 4] (by norm_num) (by norm_num)).1
     rfl⟩

/-! ### The search loop's validation-iterator recovery -/

/-- A validation batch `(x_val, y_val)`, abstracted. -/
abbrev Batch := Nat × Nat

/-- Python iteration errors. -/
inductive IterError
  | stopIteration
deriving DecidableEq, Repr

/-- `next(it)` on an iterator modelled as its remaining items: raises
`StopIteration` when exhausted. -/
def nextBatch : List Batch → Except IterError (Batch × List Batch)
  | [] => .error .stopIteration
  | b :: rest => .ok (b, rest)

/-- The nonlocal state `_pre_stepfn` reads and writes: the current
validation iterator, and the record of batches handed to `arch.step`. -/
structure PreStepState where
  valid_iter : List Batch
  arch_batches : List Batch
deriving DecidableEq, Repr

/-- `search_arch._pre_stepfn` of `search.py`: draw the next validation
batch; on `StopIteration` re-initialize the iterator from `val_dl` and draw
again (the second draw is unguarded); then hand the batch to `arch.step`. -/
def _pre_stepfn (val_dl : List Batch) (st : PreStepState) :
    Except IterError PreStepState :=
  match nextBatch st.valid_iter with
  | .ok (b, rest) => .ok ⟨rest, st.arch_batches ++ [b]⟩
  | .error .stopIteration =>
      match nextBatch val_dl with
      | .ok (b, rest) => .ok ⟨rest, st.arch_batches ++ [b]⟩
      | .error e => .error e

/-- C9: the outer search loop recovers from validation-iterator exhaustion:
whenever the loader is non-empty, every pre-step hands `arch.step` exactly
one valid validation batch, and when the iterator is exhausted the batch is
drawn from the iterator re-initialized from `val_dl`. -/
theorem c9_pre_step_recovers :
    ∀ (val_dl : List Batch) (st : PreStepState),
      val_dl ≠ [] →
      (∃ b rest, _pre_stepfn val_dl st
          = .ok ⟨rest, st.arch_batches ++ [b]⟩) ∧
      (∀ b0 dl, val_dl = b0 :: dl → st.valid_iter = [] →
        _pre_stepfn val_dl st = .ok ⟨dl, st.arch_batches ++ [b0]⟩) := by
  intro val_dl st hne
  constructor
  · cases hv : st.valid_iter with
    | nil =>
      cases val_dl with
      | nil => exact absurd rfl hne
      | cons b0 dl => exact ⟨b0, dl, by simp [_pre_stepfn, nextBatch, hv]⟩
    | cons b rest => exact ⟨b, rest, by simp [_pre_stepfn, nextBatch, hv]⟩
  · rintro b0 dl rfl hv
    simp [_pre_stepfn, nextBatch, hv]

/-- Witness for `c9_pre_step_recovers`: an exhausted iterator is re-seeded
from a one-batch loader and the architecture update still gets a batch. -/
theorem c9_pre_step_recovers_witness :
    (∃ b rest, _pre_stepfn [(1, 2)] ⟨[], []⟩ = .ok ⟨rest, [] ++ [b]⟩) ∧
    _pre_stepfn [(1, 2)] ⟨[], []⟩ = .ok ⟨[], [] ++ [(1, 2)]⟩ :=
  ⟨(c9_pre_step_recovers [(1, 2)] ⟨[], []⟩ (by decide)).1,
   (c9_pre_step_recovers [(1, 2)] ⟨[], []⟩ (by decide)).2 (1, 2) [] rfl rfl⟩

end Archai
